import Mathlib

/-
  Verification of the chunked upload pipeline of the media-vault web app.

  The definitions below are shallow embeddings of the TypeScript source:
  * `totalChunks`, `createChunks`, `finalFileName` embed the chunk-planning
    and reference-resolution code of
    src/components/upload/chunkUploadUtils.ts (uploadFileInChunks);
  * `retryGo` / `uploadChunkRetry` embed the per-chunk retry loop of
    `uploadChunk` in the same file (attempt indices 0..MAX_RETRIES-1,
    backoff RETRY_DELAY_BASE * 2^attempt, cancellation polled before each
    attempt, the error of the last attempt propagated);
  * `roundPercent`, `progressSequence`, `successRunProgress` embed the
    progress snapshots pushed by `uploadChunk` and the final update of
    `uploadFileInChunks` (Math.round(uploadedChunks/totalChunks*100),
    then a final {progress: 100, status: complete});
  * `applyProgressUpdate` embeds the setUploadProgress updater
    `prev.map(p => p.fileName === file.name ? {...p, ...} : p)`;
  * `reportedUploadedBytes` embeds `uploadedChunks * UPLOAD_CONFIG.CHUNK_SIZE`;
  * `firstCancelIndex` / `uploadFileRun` embed the dispatch loop,
    finalizer and catch-handler of `uploadFileInChunks` (chunkUploadUtils
    variant with a cancellation token);
  * `processWaves` / `chunkWaves` / `runBatches` / `part003Upload` embed the
    batched-parallel variant (unnamed/part_003): chunks are processed in
    waves of `min(MAX_CONCURRENT_UPLOADS, 4)` via Promise.allSettled and the
    task is aborted when `failedUploads.length > batch.length / 2`;
  * `onDrop` embeds the pre-flight quota gate of the FileUpload component
    (unnamed/part_004 and src/components/FileUpload.tsx).

  JS numbers are modelled as ℕ (all the quantities involved are
  non-negative integers below 2^53, where JS arithmetic is exact);
  `Math.ceil(a / b)` becomes `(a + b - 1) / b` and `Math.round(x)` of a
  non-negative rational p/q becomes `(2*p + q) / (2*q)`.
-/

namespace MediaVault

/-- Upload configuration object, uploadConfig.ts. -/
structure UploadConfig where
  CHUNK_SIZE : ℕ
  MAX_CONCURRENT_UPLOADS : ℕ
  CONNECTION_TIMEOUT : ℕ
  MAX_FILE_SIZE : ℕ
  RETRY_DELAY_BASE : ℕ
  MAX_RETRIES : ℕ
deriving DecidableEq

/-- The uploadConfig.ts variant in unnamed/part_000 (10MB chunks). -/
def UPLOAD_CONFIG_v000 : UploadConfig :=
  { CHUNK_SIZE := 10 * 1024 * 1024
    MAX_CONCURRENT_UPLOADS := 4
    CONNECTION_TIMEOUT := 120000
    MAX_FILE_SIZE := 2 * 1024 * 1024 * 1024
    RETRY_DELAY_BASE := 1000
    MAX_RETRIES := 3 }

/-- The uploadConfig.ts variant in unnamed/part_006 (5MB chunks). -/
def UPLOAD_CONFIG_v006 : UploadConfig :=
  { CHUNK_SIZE := 5 * 1024 * 1024
    MAX_CONCURRENT_UPLOADS := 6
    CONNECTION_TIMEOUT := 90000
    MAX_FILE_SIZE := 2 * 1024 * 1024 * 1024
    RETRY_DELAY_BASE := 500
    MAX_RETRIES := 2 }

/-- Number of chunks planned for a file:
`totalChunks = Math.ceil(file.size / UPLOAD_CONFIG.CHUNK_SIZE)`. -/
def totalChunks (fileSize chunkSize : ℕ) : ℕ :=
  (fileSize + chunkSize - 1) / chunkSize

/-- One planned chunk, the ChunkData record built by the planning loop of
`uploadFileInChunks`: index, byte range `[start, stop)` (stop exclusive),
destination object key and size (`chunk.size = stop - start`). -/
structure ChunkData where
  index : ℕ
  start : ℕ
  stop : ℕ
  fileName : String
  size : ℕ
deriving DecidableEq

/-- The chunk-planning loop of `uploadFileInChunks`:
for `i` in `0..totalChunks-1`, `start = i * CHUNK_SIZE`,
`end = Math.min(start + CHUNK_SIZE, file.size)`, key `fileName` when there
is a single chunk, else `fileName + ".part" + i`. -/
def createChunks (baseName : String) (fileSize chunkSize : ℕ) : List ChunkData :=
  (List.range (totalChunks fileSize chunkSize)).map fun i =>
    { index := i
      start := i * chunkSize
      stop := min (i * chunkSize + chunkSize) fileSize
      fileName :=
        if totalChunks fileSize chunkSize = 1 then baseName
        else baseName ++ ".part" ++ toString i
      size := min (i * chunkSize + chunkSize) fileSize - i * chunkSize }

/-- Reference resolution of the finalizer in `uploadFileInChunks`:
`finalFileName = fileName; if (totalChunks > 1) finalFileName = fileName + ".part0"`. -/
def finalFileName (baseName : String) (tc : ℕ) : String :=
  if tc > 1 then baseName ++ ".part0" else baseName

/-- Outcome of the per-chunk retry loop of `uploadChunk`. `success n` /
`fatal n` record the number of transport attempts made; `cancelledOutcome n`
is the throw on a set cancellation token after `n` attempts; `noAttempt` is
the fall-through when the loop body never runs (MAX_RETRIES = 0), where the
JS function returns undefined. -/
inductive RetryOutcome where
  | success (attemptsUsed : ℕ)
  | fatal (attemptsUsed : ℕ)
  | cancelledOutcome (attemptsMade : ℕ)
  | noAttempt
deriving DecidableEq

/-- Result of the retry loop: the outcome plus the list of backoff delays
waited between attempts, in order. -/
structure RetryTrace where
  outcome : RetryOutcome
  delays : List ℕ
deriving DecidableEq

/-- Body of the retry loop of `uploadChunk`, one recursive step per loop
iteration. `stub attempt` tells whether the transport attempt with that
index succeeds (an upload error and a thrown/timeout error retry
identically in the source); `cancelFlag attempt` is the value of
`cancellationToken.cancelled` when polled at the top of that iteration.
`fuel` is the number of loop iterations left (`MAX_RETRIES - attempt`). -/
def retryGo (stub cancelFlag : ℕ → Bool) (baseDelay : ℕ) : ℕ → ℕ → RetryTrace
  | _, 0 => { outcome := .noAttempt, delays := [] }
  | attempt, fuel + 1 =>
    if cancelFlag attempt then { outcome := .cancelledOutcome attempt, delays := [] }
    else if stub attempt then { outcome := .success (attempt + 1), delays := [] }
    else if fuel = 0 then { outcome := .fatal (attempt + 1), delays := [] }
    else
      let rest := retryGo stub cancelFlag baseDelay (attempt + 1) fuel
      { outcome := rest.outcome, delays := baseDelay * 2 ^ attempt :: rest.delays }

/-- The retry loop of `uploadChunk`, started at attempt 0 with
`maxRetries = UPLOAD_CONFIG.MAX_RETRIES` iterations. -/
def uploadChunkRetry (stub cancelFlag : ℕ → Bool) (maxRetries baseDelay : ℕ) : RetryTrace :=
  retryGo stub cancelFlag baseDelay 0 maxRetries

/-- Progress percentage pushed after the k-th chunk completion:
`Math.round(uploadedChunks / totalChunks * 100)` with `uploadedChunks = k`,
as exact rational rounding `(200*k + n) / (2*n)`. -/
def roundPercent (n k : ℕ) : ℕ :=
  (200 * k + n) / (2 * n)

/-- The progress values pushed by a run with `m` chunk completions: the
initial `{progress: 0, status: uploading}` entry, then one snapshot per
completion, computed from the `uploadedChunks` counter that is only ever
incremented. -/
def progressSequence (n m : ℕ) : List ℕ :=
  0 :: (List.range m).map (fun j => roundPercent n (j + 1))

/-- The full progress-value sequence of a successful run on `n` chunks:
all `n` per-chunk snapshots followed by the final
`{progress: 100, status: complete}` update. -/
def successRunProgress (n : ℕ) : List ℕ :=
  progressSequence n n ++ [100]

/-- Terminal and intermediate status values used by the progress entries
(the source assigns the strings uploading / complete / cancelled / error). -/
inductive Status where
  | uploading
  | complete
  | cancelled
  | error
deriving DecidableEq

/-- One entry of the UploadProgress state array. -/
structure ProgressEntry where
  fileName : String
  progress : ℕ
  status : Status
  speed : String
deriving DecidableEq

/-- The setUploadProgress updater used for every per-file update:
`prev.map(p => p.fileName === file.name ? f(p) : p)` — entries are matched
by file name. -/
def applyProgressUpdate (entries : List ProgressEntry) (targetName : String)
    (f : ProgressEntry → ProgressEntry) : List ProgressEntry :=
  entries.map fun p => if p.fileName = targetName then f p else p

/-- Byte count used for throughput reporting in `uploadChunk`:
`uploadedBytes = uploadedChunks * UPLOAD_CONFIG.CHUNK_SIZE`. -/
def reportedUploadedBytes (chunkSize uploadedChunks : ℕ) : ℕ :=
  uploadedChunks * chunkSize

/-- Index of the first dispatch-loop iteration at which the cancellation
token is observed set: the loop polls `cancellationToken.cancelled` at the
top of each iteration i = 0..n-1, in order. -/
def firstCancelIndex (cancelFlag : ℕ → Bool) (n : ℕ) : Option ℕ :=
  (List.range n).find? cancelFlag

/-- Observable result of one `uploadFileInChunks` run (chunkUploadUtils
variant): the chunk indices dispatched to `uploadChunk`, the terminal
status written to the progress entry, and how many `getPublicUrl` lookups
and `user_files` inserts were performed. -/
structure UploadRunResult where
  dispatchedChunks : List ℕ
  status : Status
  publicUrlLookups : ℕ
  dbInserts : ℕ
deriving DecidableEq

/-- Denotation of the dispatch loop, finalizer and catch handler of
`uploadFileInChunks` (chunkUploadUtils variant) on `n` planned chunks.
The loop dispatches chunks in order, polling the cancellation token before
each dispatch and throwing `Upload cancelled by user` when it is set; the
catch handler maps an error whose message contains `cancelled` to the
`cancelled` status and any other error to `error`, and rethrows before the
finalizer (getPublicUrl + insert) is reached. When no chunk fails and
cancellation is never observed, the finalizer runs: one URL lookup, then
one insert, which may itself fail (`dbOk = false`). `chunkFails i` tells
whether chunk i's `uploadChunk` promise is eventually rejected (its retry
budget exhausted). -/
def uploadFileRun (cancelFlag chunkFails : ℕ → Bool) (dbOk : Bool) (n : ℕ) :
    UploadRunResult :=
  match firstCancelIndex cancelFlag n with
  | some i =>
    { dispatchedChunks := List.range i, status := .cancelled
      publicUrlLookups := 0, dbInserts := 0 }
  | none =>
    if (List.range n).any chunkFails then
      { dispatchedChunks := List.range n, status := .error
        publicUrlLookups := 0, dbInserts := 0 }
    else if dbOk then
      { dispatchedChunks := List.range n, status := .complete
        publicUrlLookups := 1, dbInserts := 1 }
    else
      { dispatchedChunks := List.range n, status := .error
        publicUrlLookups := 1, dbInserts := 0 }

/-- Wave loop of unnamed/part_003: each wave is settled in full
(Promise.allSettled); if the number of rejected chunks in the wave exceeds
half the wave size (`failedUploads.length > batch.length / 2`, i.e.
`2 * failed > size`) the task throws, otherwise the next wave starts.
Returns the chunk indices attempted and whether the loop aborted.
`fails i` tells whether chunk i's upload promise is rejected after its
retries are exhausted. -/
def processWaves (fails : ℕ → Bool) : List (List ℕ) → List ℕ × Bool
  | [] => ([], false)
  | w :: ws =>
    if 2 * w.countP fails > w.length then (w, true)
    else
      let r := processWaves fails ws
      (w ++ r.1, r.2)

/-- The waves formed by `for (let i = 0; i < chunks.length; i += batchSize)`
with `batch = chunks.slice(i, i + batchSize)` over chunk indices 0..n-1. -/
def chunkWaves (batchSize n : ℕ) : List (List ℕ) :=
  (List.range ((n + batchSize - 1) / batchSize)).map fun w =>
    ((List.range n).drop (w * batchSize)).take batchSize

/-- The complete wave loop of unnamed/part_003 over `n` chunks with waves
of `batchSize` (the source uses `Math.min(MAX_CONCURRENT_UPLOADS, 4)`). -/
def runBatches (fails : ℕ → Bool) (batchSize n : ℕ) : List ℕ × Bool :=
  processWaves fails (chunkWaves batchSize n)

/-- Wave size of unnamed/part_003: `Math.min(UPLOAD_CONFIG.MAX_CONCURRENT_UPLOADS, 4)`. -/
def part003BatchSize (cfg : UploadConfig) : ℕ :=
  min cfg.MAX_CONCURRENT_UPLOADS 4

/-- Observable result of a whole unnamed/part_003 `uploadFileInChunks` run. -/
structure Part003Run where
  attempted : List ℕ
  status : Status
  fileRecordInserted : Bool
deriving DecidableEq

/-- Denotation of the unnamed/part_003 run: the wave loop, then — when no
wave tripped the failure threshold — the finalizer (getPublicUrl, insert of
the FileRecord row) and the final `{progress: 100, status: complete}`
update; any throw is caught and the status set to `error`. -/
def part003Upload (fails : ℕ → Bool) (batchSize n : ℕ) (dbOk : Bool) : Part003Run :=
  let r := runBatches fails batchSize n
  if r.2 then { attempted := r.1, status := .error, fileRecordInserted := false }
  else if dbOk then { attempted := r.1, status := .complete, fileRecordInserted := true }
  else { attempted := r.1, status := .error, fileRecordInserted := false }

/-- Side effects of one `onDrop` invocation on a batch of files. -/
structure OnDropEffects where
  rejected : Bool
  chunkPlansCreated : ℕ
  chunkTransportCalls : ℕ
  publicUrlLookups : ℕ
  dbInserts : ℕ
deriving DecidableEq

/-- Pre-flight gate of the FileUpload `onDrop` callback (unnamed/part_004,
src/components/FileUpload.tsx): reject when unauthenticated, then reject
when `storage_used + totalSize > storage_limit` (`totalSize` the sum of the
dropped files' sizes) — in both cases before any upload pipeline starts,
so with zero chunk plans, transport calls, URL lookups and inserts.
Otherwise every file is processed sequentially through the chunked
pipeline. -/
def onDrop (authed : Bool) (storageUsed storageLimit chunkSize : ℕ)
    (fileSizes : List ℕ) : OnDropEffects :=
  if authed = false then
    { rejected := true, chunkPlansCreated := 0, chunkTransportCalls := 0
      publicUrlLookups := 0, dbInserts := 0 }
  else if storageUsed + fileSizes.sum > storageLimit then
    { rejected := true, chunkPlansCreated := 0, chunkTransportCalls := 0
      publicUrlLookups := 0, dbInserts := 0 }
  else
    { rejected := false
      chunkPlansCreated := fileSizes.length
      chunkTransportCalls := (fileSizes.map (fun s => totalChunks s chunkSize)).sum
      publicUrlLookups := fileSizes.length
      dbInserts := fileSizes.length }

/-- C1: against the claim (and the spec's all-successes rule), the
batched-parallel `uploadFileInChunks` of unnamed/part_003 marks the file
complete and commits the FileRecord although a chunk's upload failed
terminally: with 4 chunks in a single wave and chunk 1 rejected after its
retries are exhausted, `failedUploads.length = 1` does not exceed
`batch.length / 2 = 2`, so no error is thrown, the finalizer runs, the
FileRecord row is inserted and the task ends with status complete. -/
theorem part003_complete_despite_failed_chunk :
    part003Upload (fun i => decide (i = 1)) (part003BatchSize UPLOAD_CONFIG_v000) 4 true =
      { attempted := [0, 1, 2, 3], status := .complete, fileRecordInserted := true } ∧
    (fun i => decide (i = 1)) 1 = true :=
  ⟨by decide, rfl⟩

/-- C2 counterexample: for `fileSize = 0` the planning loop produces the
empty chunk sequence, not one zero-length chunk, because
`totalChunks = Math.ceil(0 / CHUNK_SIZE) = 0`; in particular `totalChunks`
differs from `max 1 (ceil(fileSize / chunkSize))` there. -/
theorem plan_zero_file_empty :
    createChunks "user1/1718000000000.png" 0 UPLOAD_CONFIG_v000.CHUNK_SIZE = [] ∧
    totalChunks 0 UPLOAD_CONFIG_v000.CHUNK_SIZE = 0 ∧
    totalChunks 0 UPLOAD_CONFIG_v000.CHUNK_SIZE ≠
      max 1 (totalChunks 0 UPLOAD_CONFIG_v000.CHUNK_SIZE) := by
  refine ⟨rfl, by decide, by decide⟩

/-- C8: whenever the storage quota would be exceeded by the dropped batch
(`storage_used + totalSize > storage_limit`), `onDrop` rejects up front:
no chunk plan is created and no transport call, public-URL lookup or
database insert happens for any file of the batch. -/
theorem quota_preflight_rejects (authed : Bool) (storageUsed storageLimit chunkSize : ℕ)
    (fileSizes : List ℕ) (h : storageUsed + fileSizes.sum > storageLimit) :
    onDrop authed storageUsed storageLimit chunkSize fileSizes =
      { rejected := true, chunkPlansCreated := 0, chunkTransportCalls := 0
        publicUrlLookups := 0, dbInserts := 0 } := by
  unfold onDrop
  by_cases h1 : authed = false
  · rw [if_pos h1]
  · rw [if_neg h1, if_pos h]

/-- Witness for C8 at a concrete over-quota batch. -/
theorem quota_preflight_rejects_witness :
    onDrop true 19 20 UPLOAD_CONFIG_v000.CHUNK_SIZE [2] =
      { rejected := true, chunkPlansCreated := 0, chunkTransportCalls := 0
        publicUrlLookups := 0, dbInserts := 0 } :=
  quota_preflight_rejects true 19 20 UPLOAD_CONFIG_v000.CHUNK_SIZE [2] (by decide)

/-- C9: progress entries are matched by file name only. If two entries of
the progress array carry the same fileName, an update issued for the file
at position i also overwrites the entry at the other position j. -/
theorem same_name_progress_collision (es : List ProgressEntry) (i j : ℕ)
    (hi : i < es.length) (hj : j < es.length) (_hij : i ≠ j)
    (hname : es[i].fileName = es[j].fileName)
    (f : ProgressEntry → ProgressEntry) :
    (applyProgressUpdate es es[i].fileName f)[j]? = some (f es[j]) := by
  unfold applyProgressUpdate
  rw [List.getElem?_map, List.getElem?_eq_getElem hj]
  simp [hname]

/-- Witness for C9: two distinct files both named a.png; the completion
update for the first also overwrites the second's entry. -/
theorem same_name_progress_collision_witness :
    (applyProgressUpdate
      [{ fileName := "a.png", progress := 10, status := .uploading, speed := "0 MB/s" },
       { fileName := "a.png", progress := 55, status := .uploading, speed := "1 MB/s" }]
      "a.png"
      (fun p => { p with progress := 99, status := .complete }))[1]? =
      some { fileName := "a.png", progress := 99, status := .complete, speed := "1 MB/s" } :=
  same_name_progress_collision
    [{ fileName := "a.png", progress := 10, status := .uploading, speed := "0 MB/s" },
     { fileName := "a.png", progress := 55, status := .uploading, speed := "1 MB/s" }]
    0 1 (by decide) (by decide) (by decide) rfl
    (fun p => { p with progress := 99, status := .complete })

/-- C10: the throughput byte count is `uploadedChunks * CHUNK_SIZE`, so once
all `totalChunks` chunks of a file whose size is not a multiple of the chunk
size have completed, the reported uploaded-byte count strictly exceeds the
file size (the true transferred total). -/
theorem reported_bytes_overestimate (fileSize chunkSize : ℕ) (hc : 0 < chunkSize)
    (hnd : ¬ chunkSize ∣ fileSize) :
    fileSize < reportedUploadedBytes chunkSize (totalChunks fileSize chunkSize) := by
  obtain ⟨q, r, hr0, hrc, hfs⟩ :
      ∃ q r, r ≠ 0 ∧ r < chunkSize ∧ fileSize = chunkSize * q + r := by
    refine ⟨fileSize / chunkSize, fileSize % chunkSize, ?_, Nat.mod_lt _ hc, ?_⟩
    · exact fun h => hnd (Nat.dvd_of_mod_eq_zero h)
    · exact (Nat.div_add_mod fileSize chunkSize).symm
  have htc : totalChunks fileSize chunkSize = q + 1 := by
    unfold totalChunks
    subst hfs
    have hsum : chunkSize * q + r + chunkSize - 1 = chunkSize * (q + 1) + (r - 1) := by
      have hmu : chunkSize * (q + 1) = chunkSize * q + chunkSize := by ring
      omega
    rw [hsum, Nat.mul_add_div hc]
    have hz : (r - 1) / chunkSize = 0 := Nat.div_eq_of_lt (by omega)
    omega
  rw [htc]
  subst hfs
  unfold reportedUploadedBytes
  have hmu2 : (q + 1) * chunkSize = chunkSize * q + chunkSize := by ring
  omega

/-- Witness for C10: a 10-byte file with 4-byte chunks reports 12 uploaded
bytes after its 3 chunks complete. -/
theorem reported_bytes_overestimate_witness :
    10 < reportedUploadedBytes 4 (totalChunks 10 4) :=
  reported_bytes_overestimate 10 4 (by decide) (by decide)

/-- C6: when the plan has a single chunk its object key is the base key
with no suffix and the finalizer's reference is that key; when it has more
than one chunk every chunk i (chunk 0 included) gets the key with suffix
`.part{i}` and the finalizer's reference is chunk 0's key, the base key
with `.part0` appended. -/
theorem chunk_keys_and_reference (b : String) (fileSize chunkSize : ℕ) :
    (totalChunks fileSize chunkSize = 1 →
      (∀ ch ∈ createChunks b fileSize chunkSize, ch.fileName = b) ∧
      finalFileName b (totalChunks fileSize chunkSize) = b) ∧
    (1 < totalChunks fileSize chunkSize →
      (∀ i, i < totalChunks fileSize chunkSize →
        ((createChunks b fileSize chunkSize)[i]?).map ChunkData.fileName =
          some (b ++ ".part" ++ toString i)) ∧
      finalFileName b (totalChunks fileSize chunkSize) = b ++ ".part0" ∧
      ((createChunks b fileSize chunkSize)[0]?).map ChunkData.fileName =
        some (b ++ ".part0")) := by
  constructor
  · intro h1
    refine ⟨?_, ?_⟩
    · intro ch hch
      unfold createChunks at hch
      rw [List.mem_map] at hch
      obtain ⟨i, hi, rfl⟩ := hch
      simp [h1]
    · unfold finalFileName
      rw [if_neg (by omega)]
  · intro h1
    have hne : totalChunks fileSize chunkSize ≠ 1 := by omega
    have hkey : ∀ i, i < totalChunks fileSize chunkSize →
        ((createChunks b fileSize chunkSize)[i]?).map ChunkData.fileName =
          some (b ++ ".part" ++ toString i) := by
      intro i hi
      simp [createChunks, List.getElem?_map, List.getElem?_range, hi, hne]
    refine ⟨hkey, ?_, ?_⟩
    · unfold finalFileName
      rw [if_pos h1]
    · have h0 := hkey 0 (by omega)
      rw [h0, String.append_assoc]
      rfl

/-- Witness for C6 at a concrete multi-chunk plan (10 bytes, 4-byte chunks,
3 chunks): the finalizer reference is the base key with .part0 appended. -/
theorem chunk_keys_and_reference_witness :
    finalFileName "u1/17.png" (totalChunks 10 4) = "u1/17.png" ++ ".part0" ∧
    ((createChunks "u1/17.png" 10 4)[0]?).map ChunkData.fileName =
      some ("u1/17.png" ++ ".part0") :=
  ⟨((chunk_keys_and_reference "u1/17.png" 10 4).2 (by decide)).2.1,
   ((chunk_keys_and_reference "u1/17.png" 10 4).2 (by decide)).2.2⟩

/-- Initial snapshot value: Math.round(0/n*100) = 0. -/
lemma roundPercent_zero (n : ℕ) (hn : 0 < n) : roundPercent n 0 = 0 := by
  unfold roundPercent
  exact Nat.div_eq_of_lt (by omega)

/-- Snapshots computed from a larger counter value are at least as large. -/
lemma roundPercent_mono (n : ℕ) {k l : ℕ} (h : k ≤ l) :
    roundPercent n k ≤ roundPercent n l :=
  Nat.div_le_div_right (by omega)

/-- Snapshot after the last chunk: Math.round(n/n*100) = 100. -/
lemma roundPercent_self (n : ℕ) (hn : 0 < n) : roundPercent n n = 100 := by
  unfold roundPercent
  have h1 : 200 * n + n = 2 * n * 100 + n := by ring
  rw [h1, Nat.mul_add_div (by omega)]
  have h2 : n / (2 * n) = 0 := Nat.div_eq_of_lt (by omega)
  omega

/-- The pushed sequence is the image of the counter values 0..m under the
rounding function. -/
lemma progressSequence_eq_map (n m : ℕ) (hn : 0 < n) :
    progressSequence n m = (List.range (m + 1)).map (roundPercent n) := by
  unfold progressSequence
  rw [List.range_succ_eq_map m, List.map_cons, roundPercent_zero n hn, List.map_map]
  rfl

/-- C7: over a successful run on n chunks the sequence of progress
percentages pushed to the progress sink — one snapshot per completion in
completion order, each computed from the monotone `uploadedChunks` counter,
plus the final completion update — is monotone non-decreasing, and the
final reported value is exactly 100. -/
theorem progress_monotone (n : ℕ) (hn : 0 < n) :
    List.Chain' (· ≤ ·) (successRunProgress n) ∧
    (successRunProgress n).getLast? = some 100 := by
  have hmap := progressSequence_eq_map n n hn
  have hchain : List.Chain' (· ≤ ·) (progressSequence n n) := by
    rw [hmap, List.chain'_map]
    exact (List.chain'_range_succ _ n).mpr (fun i _ => roundPercent_mono n (by omega))
  have hlast : (progressSequence n n).getLast? = some 100 := by
    rw [hmap, List.range_succ, List.map_append]
    simp [List.getLast?_append, roundPercent_self n hn]
  constructor
  · unfold successRunProgress
    rw [List.chain'_append]
    refine ⟨hchain, by simp, ?_⟩
    intro x hx y hy
    rw [hlast] at hx
    simp only [Option.mem_def, Option.some_inj] at hx
    simp only [List.head?_cons, Option.mem_def, Option.some_inj] at hy
    omega
  · unfold successRunProgress
    simp [List.getLast?_append]

/-- Witness for C7 on a 3-chunk run. -/
theorem progress_monotone_witness :
    0 < 3 ∧ (List.Chain' (· ≤ ·) (successRunProgress 3) ∧
      (successRunProgress 3).getLast? = some 100) :=
  ⟨by decide, progress_monotone 3 (by decide)⟩

/-- Helper: with no cancellation, a stub that fails the first k attempts
after `attempt` and succeeds at relative index k makes the loop return
success after attempt+k+1 attempts, having waited the backoff of each
failed attempt. -/
lemma retryGo_success (stub : ℕ → Bool) (baseDelay : ℕ) :
    ∀ fuel attempt k, k < fuel →
      (∀ j, j < k → stub (attempt + j) = false) → stub (attempt + k) = true →
      retryGo stub (fun _ => false) baseDelay attempt fuel =
        { outcome := .success (attempt + k + 1)
          delays := (List.range' attempt k).map (fun j => baseDelay * 2 ^ j) } := by
  intro fuel
  induction fuel with
  | zero => intro attempt k hk _ _; omega
  | succ f ih =>
    intro attempt k hk hfail hsucc
    cases k with
    | zero =>
      rw [Nat.add_zero] at hsucc
      simp only [retryGo]
      rw [if_neg (by simp), if_pos hsucc]
      simp
    | succ k2 =>
      have h0 : stub attempt = false := by
        have h00 := hfail 0 (by omega)
        rwa [Nat.add_zero] at h00
      have hf : f ≠ 0 := by omega
      have hrec := ih (attempt + 1) k2 (by omega)
        (fun j hj => by
          have hh := hfail (j + 1) (by omega)
          rwa [show attempt + (j + 1) = attempt + 1 + j by omega] at hh)
        (by
          have hh := hsucc
          rwa [show attempt + (k2 + 1) = attempt + 1 + k2 by omega] at hh)
      simp only [retryGo]
      rw [if_neg (by simp), if_neg (by simp [h0]), if_neg hf, hrec, List.range'_succ]
      simp only [List.map_cons, RetryTrace.mk.injEq, RetryOutcome.success.injEq]
      exact ⟨by omega, trivial⟩

/-- Helper: with no cancellation and a stub that always fails, the loop
makes all `fuel` remaining attempts, waits the backoff of every attempt
but the last, and propagates the final failure. -/
lemma retryGo_fatal (stub : ℕ → Bool) (baseDelay : ℕ) :
    ∀ fuel attempt, 0 < fuel → (∀ j, stub j = false) →
      retryGo stub (fun _ => false) baseDelay attempt fuel =
        { outcome := .fatal (attempt + fuel)
          delays := (List.range' attempt (fuel - 1)).map (fun j => baseDelay * 2 ^ j) } := by
  intro fuel
  induction fuel with
  | zero => intro attempt h _; omega
  | succ f ih =>
    intro attempt _ hfail
    by_cases hf : f = 0
    · subst hf
      simp only [retryGo]
      rw [if_neg (by simp), if_neg (by simp [hfail attempt])]
      simp
    · simp only [retryGo]
      rw [if_neg (by simp), if_neg (by simp [hfail attempt]), if_neg hf,
        ih (attempt + 1) (by omega) hfail]
      have hr : List.range' attempt (f + 1 - 1) =
          attempt :: List.range' (attempt + 1) (f - 1) := by
        have h2 : f + 1 - 1 = (f - 1) + 1 := by omega
        rw [h2, List.range'_succ]
      rw [hr]
      simp only [List.map_cons, RetryTrace.mk.injEq, RetryOutcome.fatal.injEq]
      exact ⟨by omega, trivial⟩

/-- C3: the per-chunk retry loop performs at most `maxRetries` transport
attempts. If the stub fails the first k < maxRetries attempts and then
succeeds, the chunk succeeds after exactly k+1 attempts; if the stub always
fails, exactly maxRetries attempts are made and the last error is
propagated as a fatal error; in both cases the delay waited after failed
attempt k (for k before the last attempt) is baseDelay * 2^k. -/
theorem retry_spec (stub : ℕ → Bool) (maxRetries baseDelay : ℕ) :
    (∀ k, k < maxRetries → (∀ j, j < k → stub j = false) → stub k = true →
      uploadChunkRetry stub (fun _ => false) maxRetries baseDelay =
        { outcome := .success (k + 1)
          delays := (List.range k).map (fun j => baseDelay * 2 ^ j) }) ∧
    (0 < maxRetries → (∀ j, stub j = false) →
      uploadChunkRetry stub (fun _ => false) maxRetries baseDelay =
        { outcome := .fatal maxRetries
          delays := (List.range (maxRetries - 1)).map (fun j => baseDelay * 2 ^ j) }) := by
  constructor
  · intro k hk hfail hsucc
    unfold uploadChunkRetry
    have h := retryGo_success stub baseDelay maxRetries 0 k hk
      (fun j hj => by simpa using hfail j hj) (by simpa using hsucc)
    rw [h, List.range_eq_range' k]
    simp
  · intro hm hfail
    unfold uploadChunkRetry
    have h := retryGo_fatal stub baseDelay maxRetries 0 hm hfail
    rw [h, List.range_eq_range' (maxRetries - 1)]
    simp

/-- Witness for C3: with 3 max attempts and base delay 1000, a stub that
fails once then succeeds uses exactly 2 attempts and waits 1000 * 2^0 once. -/
theorem retry_spec_witness :
    uploadChunkRetry (fun k => decide (1 ≤ k)) (fun _ => false) 3 1000 =
      { outcome := .success (1 + 1)
        delays := (List.range 1).map (fun j => 1000 * 2 ^ j) } :=
  (retry_spec (fun k => decide (1 ≤ k)) 3 1000).1 1 (by decide) (by decide) (by decide)

/-- Helper: the dispatch loop polls the cancellation token on iterations
0..n-1 in order, so the first index at which the token is set is the one
observed. -/
lemma firstCancelIndex_eq_some (cancelFlag : ℕ → Bool) :
    ∀ n i, i < n → (∀ j, j < i → cancelFlag j = false) → cancelFlag i = true →
      firstCancelIndex cancelFlag n = some i := by
  intro n
  induction n with
  | zero => intro i hi _ _; omega
  | succ m ih =>
    intro i hi hprev hset
    unfold firstCancelIndex at *
    rw [List.range_succ, List.find?_append]
    by_cases him : i < m
    · rw [ih i him hprev hset]
      rfl
    · have hieq : i = m := by omega
      subst hieq
      have hnone : (List.range i).find? cancelFlag = none := by
        rw [List.find?_eq_none]
        intro x hx
        rw [List.mem_range] at hx
        simp [hprev x hx]
      rw [hnone]
      simp [List.find?_cons, hset]

/-- C5 counterexample: a zero-byte file plans zero chunks, so the dispatch
loop body never runs and the cancellation token — although set before any
chunk dispatch — is never polled: the run completes, performs the
public-URL lookup and inserts the FileRecord instead of ending cancelled. -/
theorem cancel_zero_chunks_completes :
    uploadFileRun (fun _ => true) (fun _ => false) true
        (totalChunks 0 UPLOAD_CONFIG_v000.CHUNK_SIZE) =
      { dispatchedChunks := [], status := .complete
        publicUrlLookups := 1, dbInserts := 1 } ∧
    (fun _ : ℕ => true) 0 = true :=
  ⟨by decide, rfl⟩

/-- C5 (amended to runs with at least one planned chunk): if the token is
set before the first dispatch poll, the run ends cancelled with no chunk
dispatched (hence zero transport calls) and no finalizer activity; once the
token is observed at poll i, exactly the chunks before i were dispatched
and the status is cancelled; a cancelled run never performs the public-URL
lookup or the FileRecord insert; and the cancelled status is distinct from
error and complete. -/
theorem cancellation_spec (cancelFlag chunkFails : ℕ → Bool) (dbOk : Bool) (n : ℕ) :
    (0 < n → cancelFlag 0 = true →
      uploadFileRun cancelFlag chunkFails dbOk n =
        { dispatchedChunks := [], status := .cancelled
          publicUrlLookups := 0, dbInserts := 0 }) ∧
    (∀ i, i < n → (∀ j, j < i → cancelFlag j = false) → cancelFlag i = true →
      uploadFileRun cancelFlag chunkFails dbOk n =
        { dispatchedChunks := List.range i, status := .cancelled
          publicUrlLookups := 0, dbInserts := 0 }) ∧
    ((uploadFileRun cancelFlag chunkFails dbOk n).status = .cancelled →
      (uploadFileRun cancelFlag chunkFails dbOk n).publicUrlLookups = 0 ∧
      (uploadFileRun cancelFlag chunkFails dbOk n).dbInserts = 0) ∧
    (Status.cancelled ≠ Status.error ∧ Status.cancelled ≠ Status.complete) := by
  have hsome : ∀ i, firstCancelIndex cancelFlag n = some i →
      uploadFileRun cancelFlag chunkFails dbOk n =
        { dispatchedChunks := List.range i, status := .cancelled
          publicUrlLookups := 0, dbInserts := 0 } := by
    intro i h
    unfold uploadFileRun
    rw [h]
  have hnone : firstCancelIndex cancelFlag n = none →
      uploadFileRun cancelFlag chunkFails dbOk n =
        (if (List.range n).any chunkFails then
          { dispatchedChunks := List.range n, status := .error
            publicUrlLookups := 0, dbInserts := 0 }
        else if dbOk then
          { dispatchedChunks := List.range n, status := .complete
            publicUrlLookups := 1, dbInserts := 1 }
        else
          { dispatchedChunks := List.range n, status := .error
            publicUrlLookups := 1, dbInserts := 0 }) := by
    intro h
    unfold uploadFileRun
    rw [h]
  refine ⟨?_, ?_, ?_, by decide⟩
  · intro hn h0
    rw [hsome 0 (firstCancelIndex_eq_some cancelFlag n 0 hn (by omega) h0)]
    rfl
  · intro i hi hprev hset
    exact hsome i (firstCancelIndex_eq_some cancelFlag n i hi hprev hset)
  · intro hst
    rcases hfc : firstCancelIndex cancelFlag n with _ | i
    · rw [hnone hfc] at hst
      split_ifs at hst
    · rw [hsome i hfc]
      exact ⟨rfl, rfl⟩

/-- Witness for C5 on a 3-chunk run with the token set from the start. -/
theorem cancellation_spec_witness :
    uploadFileRun (fun _ => true) (fun _ => false) true 3 =
      { dispatchedChunks := [], status := .cancelled
        publicUrlLookups := 0, dbInserts := 0 } :=
  (cancellation_spec (fun _ => true) (fun _ => false) true 3).1 (by decide) rfl

/-- Helper: the wave loop throws at the first wave whose rejected-chunk
count exceeds half its size, having attempted exactly the waves up to and
including it. -/
lemma processWaves_abort (fails : ℕ → Bool) :
    ∀ (ws : List (List ℕ)) (w : ℕ) (hw : w < ws.length),
      (∀ wv ∈ ws.take w, ¬ 2 * wv.countP fails > wv.length) →
      2 * (ws.get ⟨w, hw⟩).countP fails > (ws.get ⟨w, hw⟩).length →
      processWaves fails ws = ((ws.take (w + 1)).flatten, true) := by
  intro ws
  induction ws with
  | nil => intro w hw _ _; simp at hw
  | cons hd tl ih =>
    intro w hw hgood hbad
    cases w with
    | zero =>
      unfold processWaves
      rw [if_pos (by simpa using hbad)]
      simp
    | succ v =>
      have hghd : ¬ 2 * hd.countP fails > hd.length := by
        apply hgood
        rw [List.take_succ_cons]
        exact List.mem_cons_self hd _
      unfold processWaves
      rw [if_neg hghd]
      have hrec := ih v (by simpa using hw)
        (fun wv hwv => hgood wv (by rw [List.take_succ_cons]; exact List.mem_cons_of_mem hd hwv))
        (by simpa using hbad)
      rw [hrec]
      simp [List.take_succ_cons]

/-- C4: under the batched-parallel scheduling of unnamed/part_003, if the
waves before wave w are all below the failure threshold and wave w has
strictly more than half of its chunks rejected, the wave loop throws right
after wave w settles: exactly the chunks of waves 0..w were attempted,
every attempted chunk index is below (w+1)*batchSize, and no chunk of any
later wave is ever dispatched. -/
theorem wave_threshold_aborts (fails : ℕ → Bool) (batchSize n w : ℕ)
    (hw : w < (chunkWaves batchSize n).length)
    (hgood : ∀ wv ∈ (chunkWaves batchSize n).take w, ¬ 2 * wv.countP fails > wv.length)
    (hbad : 2 * ((chunkWaves batchSize n).get ⟨w, hw⟩).countP fails >
      ((chunkWaves batchSize n).get ⟨w, hw⟩).length) :
    runBatches fails batchSize n = (((chunkWaves batchSize n).take (w + 1)).flatten, true) ∧
    ∀ x ∈ (runBatches fails batchSize n).1, x < (w + 1) * batchSize := by
  have heq : runBatches fails batchSize n =
      (((chunkWaves batchSize n).take (w + 1)).flatten, true) :=
    processWaves_abort fails _ w hw hgood hbad
  refine ⟨heq, ?_⟩
  rw [heq]
  intro x hx
  rw [List.mem_flatten] at hx
  obtain ⟨wv, hwv, hxwv⟩ := hx
  rw [chunkWaves, ← List.map_take, List.mem_map] at hwv
  obtain ⟨v, hv, rfl⟩ := hwv
  rw [List.take_range, List.mem_range] at hv
  have hvw : v < w + 1 := lt_of_lt_of_le hv (min_le_left _ _)
  rw [List.mem_iff_getElem] at hxwv
  obtain ⟨idx, hidx, hx_eq⟩ := hxwv
  have hlen1 : idx < batchSize := by
    have h2 := hidx
    rw [List.length_take] at h2
    omega
  rw [List.getElem_take, List.getElem_drop, List.getElem_range] at hx_eq
  have h1 : (v + 1) * batchSize = v * batchSize + batchSize := Nat.succ_mul v batchSize
  have h2 : (v + 1) * batchSize ≤ (w + 1) * batchSize :=
    Nat.mul_le_mul_right _ (by omega)
  omega

/-- Witness for C4: 8 chunks in waves of 4; chunks 0, 1, 2 fail fatally, so
the first wave has 3 > 4/2 failures and the run aborts after attempting
only that wave. -/
theorem wave_threshold_aborts_witness :
    runBatches (fun i => decide (i < 3)) 4 8 =
      (((chunkWaves 4 8).take (0 + 1)).flatten, true) :=
  (wave_threshold_aborts (fun i => decide (i < 3)) 4 8 0 (by decide) (by decide)
    (by decide)).1

/-- C2 (amended): for every fileSize and chunkSize > 0 the plan has
`ceil(fileSize/chunkSize)` chunks — the empty plan for an empty file, not
one zero-length chunk; chunk i spans
`[i*chunkSize, min((i+1)*chunkSize, fileSize))`; consecutive ranges are
contiguous; and the ranges exactly cover `[0, fileSize)`, every byte of the
file lying in a range and no byte lying in two distinct ranges. -/
theorem createChunks_spec (b : String) (fileSize chunkSize : ℕ) (hc : 0 < chunkSize) :
    (createChunks b fileSize chunkSize).length = totalChunks fileSize chunkSize ∧
    (fileSize = 0 → createChunks b fileSize chunkSize = []) ∧
    (∀ i, i < totalChunks fileSize chunkSize →
      ((createChunks b fileSize chunkSize)[i]?).map (fun ch => (ch.start, ch.stop)) =
        some (i * chunkSize, min (i * chunkSize + chunkSize) fileSize)) ∧
    (∀ i, i + 1 < totalChunks fileSize chunkSize →
      min (i * chunkSize + chunkSize) fileSize = (i + 1) * chunkSize) ∧
    (∀ byte, byte < fileSize ↔ ∃ i, i < totalChunks fileSize chunkSize ∧
      i * chunkSize ≤ byte ∧ byte < min (i * chunkSize + chunkSize) fileSize) ∧
    (∀ byte i j, i * chunkSize ≤ byte → byte < i * chunkSize + chunkSize →
      j * chunkSize ≤ byte → byte < j * chunkSize + chunkSize → i = j) := by
  refine ⟨?_, ?_, ?_, ?_, ?_, ?_⟩
  · simp [createChunks]
  · intro h0
    subst h0
    have htz : totalChunks 0 chunkSize = 0 := Nat.div_eq_of_lt (by omega)
    simp [createChunks, htz]
  · intro i hi
    simp [createChunks, List.getElem?_map, List.getElem?_range, hi]
  · intro i h
    unfold totalChunks at h
    have h3 := (Nat.le_div_iff_mul_le hc).mp
      (show i + 2 ≤ (fileSize + chunkSize - 1) / chunkSize by omega)
    have e2 : (i + 1) * chunkSize = i * chunkSize + chunkSize := Nat.succ_mul i chunkSize
    have e3 : (i + 2) * chunkSize = (i + 1) * chunkSize + chunkSize :=
      Nat.succ_mul (i + 1) chunkSize
    rw [← e2]
    exact Nat.min_eq_left (by omega)
  · intro byte
    constructor
    · intro hb
      refine ⟨byte / chunkSize, ?_, ?_, ?_⟩
      · unfold totalChunks
        have e1 : (byte / chunkSize + 1) * chunkSize =
            byte / chunkSize * chunkSize + chunkSize := Nat.succ_mul _ chunkSize
        have hdm : chunkSize * (byte / chunkSize) + byte % chunkSize = byte :=
          Nat.div_add_mod byte chunkSize
        have hcm : chunkSize * (byte / chunkSize) = byte / chunkSize * chunkSize :=
          Nat.mul_comm _ _
        have h4 := (Nat.le_div_iff_mul_le hc).mpr
          (show (byte / chunkSize + 1) * chunkSize ≤ fileSize + chunkSize - 1 by omega)
        omega
      · have hdm : chunkSize * (byte / chunkSize) + byte % chunkSize = byte :=
          Nat.div_add_mod byte chunkSize
        have hcm : chunkSize * (byte / chunkSize) = byte / chunkSize * chunkSize :=
          Nat.mul_comm _ _
        omega
      · have hdm : chunkSize * (byte / chunkSize) + byte % chunkSize = byte :=
          Nat.div_add_mod byte chunkSize
        have hcm : chunkSize * (byte / chunkSize) = byte / chunkSize * chunkSize :=
          Nat.mul_comm _ _
        have hmod : byte % chunkSize < chunkSize := Nat.mod_lt _ hc
        exact Nat.lt_min.mpr ⟨by omega, hb⟩
    · rintro ⟨i, _, _, h2⟩
      exact lt_of_lt_of_le h2 (min_le_right _ _)
  · intro byte i j h1 h2 h3 h4
    rcases Nat.lt_trichotomy i j with hij | hij | hij
    · exfalso
      have e1 : (i + 1) * chunkSize = i * chunkSize + chunkSize := Nat.succ_mul i chunkSize
      have hle : (i + 1) * chunkSize ≤ j * chunkSize :=
        Nat.mul_le_mul_right _ (by omega)
      omega
    · exact hij
    · exfalso
      have e1 : (j + 1) * chunkSize = j * chunkSize + chunkSize := Nat.succ_mul j chunkSize
      have hle : (j + 1) * chunkSize ≤ i * chunkSize :=
        Nat.mul_le_mul_right _ (by omega)
      omega

/-- Witness for C2's amended theorem at a 10-byte file with 4-byte chunks. -/
theorem createChunks_spec_witness :
    0 < 4 ∧ (createChunks "u1/17.png" 10 4).length = totalChunks 10 4 :=
  ⟨by decide, (createChunks_spec "u1/17.png" 10 4 (by decide)).1⟩

end MediaVault
